import Mathlib

/-!
Verification development for the icesl2voxel voxel-field pipeline.

Shallow embedding conventions:
* Rust `f32` scalar arithmetic is embedded in `ℚ` wherever the verified
  property does not depend on rounding or on IEEE special values; every
  concrete input evaluated below is chosen so that the `f32` computation is
  exact and agrees with the rational one.
* Where IEEE special values (infinities, NaN) are essential (the degenerate
  bounding-box path of the G-code rasterizer), a dedicated type `F` models
  `f32` as exact rationals extended with `+inf`, `-inf` and NaN; finite
  results beyond the `f32` range overflow to the infinities.
* `u8` cell values are `Fin 256` or `ℕ`; the Rust saturating `as u8` cast is
  `ratTruncU8`.
* Arrays are total functions from indices (plus explicit dims); fallible
  code returns `Except`/`Option`; a Rust index-out-of-bounds panic is a
  distinguished outcome, never silently defaulted.
-/

namespace Icesl2Voxel

/-- Largest finite `f32` value `f32::MAX = (2^24 - 1) * 2^104`, exactly
(written as a numeral so that kernel reduction can evaluate it). -/
def f32Max : ℚ := 340282346638528859811704183484516925440

/-- Smallest finite `f32` value `f32::MIN = -f32::MAX`. -/
def f32Min : ℚ := -f32Max

/-- Truncation of a rational toward zero, the rounding used by Rust
`f32 as isize` / `f32 as usize` casts and by `f32::fract`. -/
def truncQ (q : ℚ) : ℤ := if 0 ≤ q then ⌊q⌋ else ⌈q⌉

/-- Rust `f32::fract`: fractional part with the sign of the input. -/
def fractQ (q : ℚ) : ℚ := q - truncQ q

/-- Rust `isize::max` (spelled out so kernel reduction can evaluate it). -/
def imax (a b : ℤ) : ℤ := if a ≤ b then b else a

/-- Rust `isize::min` (spelled out so kernel reduction can evaluate it). -/
def imin (a b : ℤ) : ℤ := if a ≤ b then a else b

/-- Rust saturating cast `f32 as u8` (truncation toward zero, clamped to
[0, 255]). -/
def ratTruncU8 (q : ℚ) : ℕ := (imin (imax (truncQ q) 0) 255).toNat

/-- Rust `u8::saturating_add`. -/
def satAdd (a b : ℕ) : ℕ := if a + b ≤ 255 then a + b else 255

/-- A 3-vector of rationals (embedding `nalgebra::Vector3<f32>` where the
computation stays finite and exact). -/
structure Vec3 where
  x : ℚ
  y : ℚ
  z : ℚ
deriving DecidableEq, Repr

/-- `BoundingBox<T>` from `utils.rs`: six scalar bounds. -/
structure BoundingBox where
  min_x : ℚ
  min_y : ℚ
  min_z : ℚ
  max_x : ℚ
  max_y : ℚ
  max_z : ℚ
deriving DecidableEq, Repr

/-- `BoundingBox::size` from `utils.rs` (x component). -/
def BoundingBox.sizeX (bb : BoundingBox) : ℚ := bb.max_x - bb.min_x

/-- `BoundingBox::size` from `utils.rs` (y component). -/
def BoundingBox.sizeY (bb : BoundingBox) : ℚ := bb.max_y - bb.min_y

/-- `BoundingBox::size` from `utils.rs` (z component). -/
def BoundingBox.sizeZ (bb : BoundingBox) : ℚ := bb.max_z - bb.min_z

/-- One update step of the `From<iterator>` constructor of `BoundingBox`
(`utils.rs` lines 57-66): fold one endpoint into the running bounds. -/
def bboxStep (bb : BoundingBox) (pt : Vec3) : BoundingBox :=
  { min_x := min bb.min_x pt.x
    min_y := min bb.min_y pt.y
    min_z := min bb.min_z pt.z
    max_x := max bb.max_x pt.x
    max_y := max bb.max_y pt.y
    max_z := max bb.max_z pt.z }

/-- The initial accumulator of the `From<iterator>` constructor
(`utils.rs` lines 50-55): mins start at `f32::MAX`, maxes at `f32::MIN`. -/
def bboxEmpty : BoundingBox :=
  { min_x := f32Max, min_y := f32Max, min_z := f32Max
    max_x := f32Min, max_y := f32Min, max_z := f32Min }

/-- `impl From<iterator of endpoint pairs> for BoundingBox` from `utils.rs`
lines 39-77: fold both endpoints of every segment into the bounds. -/
def bboxFromSegments (it : List (Vec3 × Vec3)) : BoundingBox :=
  it.foldl (fun bb p => bboxStep (bboxStep bb p.1) p.2) bboxEmpty

/-- The bounding box satisfies the per-axis ordering invariant. -/
def BoundingBox.proper (bb : BoundingBox) : Prop :=
  bb.min_x ≤ bb.max_x ∧ bb.min_y ≤ bb.max_y ∧ bb.min_z ≤ bb.max_z

instance (bb : BoundingBox) : Decidable bb.proper :=
  inferInstanceAs
    (Decidable (bb.min_x ≤ bb.max_x ∧ bb.min_y ≤ bb.max_y ∧ bb.min_z ≤ bb.max_z))

/-- The dilation of the rasterizer bounding box from `voxelizer.rs` lines
167-174: X/Y dilated by half the nozzle diameter on each side, the Z
minimum by `2 * d / 2` and the Z maximum by `d / 2`. -/
def dilateBBox (bb : BoundingBox) (nozzle_diameter : ℚ) : BoundingBox :=
  { min_x := bb.min_x - nozzle_diameter / 2
    min_y := bb.min_y - nozzle_diameter / 2
    min_z := bb.min_z - 2 * nozzle_diameter / 2
    max_x := bb.max_x + nozzle_diameter / 2
    max_y := bb.max_y + nozzle_diameter / 2
    max_z := bb.max_z + nozzle_diameter / 2 }

/-- A G-code extrusion segment as kept by the rasterizer (geometry and the
originating layer; the process state does not matter to the claims). -/
structure Seg where
  start : Vec3
  stop : Vec3
  layer : Option ℕ
deriving DecidableEq, Repr

/-- The layer filter of `voxelize_gcode` (`voxelizer.rs` line 162): keep a
segment only when its layer tag is present and positive. -/
def segLayerPos (s : Seg) : Bool :=
  match s.layer with
  | some l => decide (0 < l)
  | none => false

/-- The bounding-box stage of `voxelize_gcode` (`voxelizer.rs` lines
159-174): bounds of the endpoints of the layer-positive segments, then
dilated by `dilateBBox`. -/
def printerBBox (segments : List Seg) (nozzle_diameter : ℚ) : BoundingBox :=
  dilateBBox
    (bboxFromSegments ((segments.filter segLayerPos).map fun s => (s.start, s.stop)))
    nozzle_diameter

/-- The bounding box asserted by claim C4, following the spec words: the
layer-positive endpoint bounds extended by half a nozzle diameter in X and
Y and by a full nozzle diameter in Z, on every side. -/
def claimPrinterBBox (segments : List Seg) (nozzle_diameter : ℚ) : BoundingBox :=
  let bb := bboxFromSegments
    ((segments.filter segLayerPos).map fun s => (s.start, s.stop))
  { min_x := bb.min_x - nozzle_diameter / 2
    min_y := bb.min_y - nozzle_diameter / 2
    min_z := bb.min_z - nozzle_diameter
    max_x := bb.max_x + nozzle_diameter / 2
    max_y := bb.max_y + nozzle_diameter / 2
    max_z := bb.max_z + nozzle_diameter }

/-- The bounding box described by the amended claim C4: extended by half a
nozzle diameter on each side in X and Y, by a full nozzle diameter below in
Z, but only by half a nozzle diameter above in Z. -/
def amendedPrinterBBox (segments : List Seg) (nozzle_diameter : ℚ) : BoundingBox :=
  let bb := bboxFromSegments
    ((segments.filter segLayerPos).map fun s => (s.start, s.stop))
  { min_x := bb.min_x - nozzle_diameter / 2
    min_y := bb.min_y - nozzle_diameter / 2
    min_z := bb.min_z - nozzle_diameter
    max_x := bb.max_x + nozzle_diameter / 2
    max_y := bb.max_y + nozzle_diameter / 2
    max_z := bb.max_z + nozzle_diameter / 2 }

/-- A concrete layer-1 unit segment used as a test input. -/
def segUnit1 : Seg :=
  { start := ⟨0, 0, 0⟩, stop := ⟨1, 1, 1⟩, layer := some 1 }

lemma bboxStep_proper (bb : BoundingBox) (pt : Vec3) : (bboxStep bb pt).proper := by
  unfold bboxStep BoundingBox.proper
  exact ⟨le_trans (min_le_right _ _) (le_max_right _ _),
    le_trans (min_le_right _ _) (le_max_right _ _),
    le_trans (min_le_right _ _) (le_max_right _ _)⟩

lemma bboxFold_proper (l : List (Vec3 × Vec3)) (bb : BoundingBox)
    (h : bb.proper) :
    (l.foldl (fun bb p => bboxStep (bboxStep bb p.1) p.2) bb).proper := by
  induction l generalizing bb with
  | nil => exact h
  | cons p t ih =>
      exact ih _ (bboxStep_proper _ _)

/-- C5 counterexample: the `From<iterator>` constructor applied to the
empty endpoint sequence yields the inverted box with
`min_x = f32::MAX > f32::MIN = max_x`, violating the claimed invariant. -/
theorem c5_empty_bbox_improper : ¬ (bboxFromSegments []).proper := by
  decide

/-- C5 (amended): a `BoundingBox` built by the `From<iterator>` constructor
over any nonempty sequence of segment endpoint pairs satisfies
`min ≤ max` on each of the three axes; the empty sequence instead yields the
inverted box of the initial accumulators. -/
theorem c5_bbox_proper_of_nonempty (l : List (Vec3 × Vec3)) (h : l ≠ []) :
    (bboxFromSegments l).proper := by
  cases l with
  | nil => exact absurd rfl h
  | cons p t =>
      unfold bboxFromSegments
      rw [List.foldl_cons]
      exact bboxFold_proper t _ (bboxStep_proper _ _)

/-- C5 witness: the singleton sequence gives a proper box. -/
theorem c5_bbox_proper_witness :
    (bboxFromSegments [(⟨0, 0, 0⟩, ⟨1, 2, 3⟩)]).proper :=
  c5_bbox_proper_of_nonempty [(⟨0, 0, 0⟩, ⟨1, 2, 3⟩)] (by decide)

/-- C4 counterexample: for a single layer-1 segment and nozzle diameter 1,
the rasterizer's box is not the claimed one — the Z maximum is extended by
only half a nozzle diameter, not a full one. -/
theorem c4_bbox_not_claimed :
    printerBBox [segUnit1] 1 ≠ claimPrinterBBox [segUnit1] 1 := by
  intro h
  have h2 := congrArg BoundingBox.max_z h
  simp only [printerBBox, claimPrinterBBox, dilateBBox] at h2
  linarith

/-- C4 (amended): for every segment list and nozzle diameter, the
rasterizer's bounding box equals the layer-positive endpoint bounds
extended by half the nozzle diameter on each side in X and Y, by a full
nozzle diameter below in Z, and by half a nozzle diameter above in Z. -/
theorem c4_bbox_dilation (segments : List Seg) (nozzle_diameter : ℚ) :
    printerBBox segments nozzle_diameter
      = amendedPrinterBBox segments nozzle_diameter := by
  unfold printerBBox amendedPrinterBBox dilateBBox
  have h : ∀ a d : ℚ, a - 2 * d / 2 = a - d := fun a d => by ring
  rw [h]

/-! ### Field resampler (`ParamField::resample`, `param_field.rs` lines 297-404) -/

/-- A scalar byte voxel field: bounding box, dims `(nz, ny, nx)` and cell
data (channel 0 of the `ByteVec4` storage; `u8` values as `Fin 256`). -/
structure ByteField where
  field_box_mm : BoundingBox
  nz : ℕ
  ny : ℕ
  nx : ℕ
  data : ℕ → ℕ → ℕ → Fin 256

/-- The destination-to-source coordinate map of `ParamField::resample`
(`param_field.rs` lines 305-315 and 321-325): the destination cell center
`idx + 0.5` is scaled by `out_scale = out_size / out_dim` into millimetres
and divided by `in_scale = in_size / in_dim` into source array
coordinates. -/
def resampleCoord (outSize inSize : ℚ) (outDim inDim : ℕ) (idx : ℕ) : ℚ :=
  ((idx : ℚ) + 1 / 2) * (outSize / (outDim : ℚ)) / (inSize / (inDim : ℚ))

/-- The clamped floor index of `ParamField::resample` (`param_field.rs`
lines 328-330): `(q.floor() as isize).max(0).min((dim - 1) as isize) as
usize`. -/
def clampFloorIdx (q : ℚ) (c : ℕ) : ℕ := (imin (imax ⌊q⌋ 0) ((c : ℤ) - 1)).toNat

/-- The clamped ceil index of `ParamField::resample` (`param_field.rs`
lines 331-333): `(q.ceil() as isize).max(0).min((dim - 1) as isize) as
usize`. -/
def clampCeilIdx (q : ℚ) (c : ℕ) : ℕ := (imin (imax ⌈q⌉ 0) ((c : ℤ) - 1)).toNat

/-- The x source coordinate computed for destination cell `i`. -/
def resamplePx (src mask : ByteField) (i : ℕ) : ℚ :=
  resampleCoord mask.field_box_mm.sizeX src.field_box_mm.sizeX mask.nx src.nx i

/-- The y source coordinate computed for destination cell `j`. -/
def resamplePy (src mask : ByteField) (j : ℕ) : ℚ :=
  resampleCoord mask.field_box_mm.sizeY src.field_box_mm.sizeY mask.ny src.ny j

/-- The z source coordinate computed for destination cell `k`. -/
def resamplePz (src mask : ByteField) (k : ℕ) : ℚ :=
  resampleCoord mask.field_box_mm.sizeZ src.field_box_mm.sizeZ mask.nz src.nz k

/-- One output cell of the `ByteVec4` branch of `ParamField::resample`
(`param_field.rs` lines 318-347), including the `pz1` (not `pz2`) read in
the second term of `c11` exactly as in the source. -/
def resampleByteAt (src mask : ByteField) (k j i : ℕ) : ℕ :=
  let p_x := resamplePx src mask i
  let p_y := resamplePy src mask j
  let p_z := resamplePz src mask k
  let px1 := clampFloorIdx p_x src.nx
  let py1 := clampFloorIdx p_y src.ny
  let pz1 := clampFloorIdx p_z src.nz
  let px2 := clampCeilIdx p_x src.nx
  let py2 := clampCeilIdx p_y src.ny
  let pz2 := clampCeilIdx p_z src.nz
  let ax := fractQ p_x
  let ay := fractQ p_y
  let az := fractQ p_z
  let c00 := ((src.data pz1 py1 px1).val : ℚ) * (1 - ax) + ((src.data pz1 py1 px2).val : ℚ) * ax
  let c01 := ((src.data pz2 py1 px1).val : ℚ) * (1 - ax) + ((src.data pz2 py1 px2).val : ℚ) * ax
  let c10 := ((src.data pz1 py2 px1).val : ℚ) * (1 - ax) + ((src.data pz1 py2 px2).val : ℚ) * ax
  let c11 := ((src.data pz2 py2 px1).val : ℚ) * (1 - ax) + ((src.data pz1 py2 px2).val : ℚ) * ax
  let c0 := c00 * (1 - ay) + c10 * ay
  let c1 := c01 * (1 - ay) + c11 * ay
  ratTruncU8 (((mask.data k j i).val : ℚ) / 255 * (c0 * (1 - az) + c1 * az))

/-- Concrete source field for C1: dims `(1, 1, 2)`, box `[0,2]×[0,1]×[0,1]`,
cell values 0 and 255 along x. -/
def srcC1 : ByteField :=
  { field_box_mm := ⟨0, 0, 0, 2, 1, 1⟩, nz := 1, ny := 1, nx := 2
    data := fun _ _ i => if i = 0 then 0 else 255 }

/-- Concrete mask field for C1: same dims and box as `srcC1`, all cells
255. -/
def maskC1 : ByteField :=
  { field_box_mm := ⟨0, 0, 0, 2, 1, 1⟩, nz := 1, ny := 1, nx := 2
    data := fun _ _ _ => 255 }

lemma ratTruncU8_natCast (v : ℕ) (hv : v ≤ 255) : ratTruncU8 (v : ℚ) = v := by
  unfold ratTruncU8 truncQ imin imax
  rw [if_pos (by positivity : (0:ℚ) ≤ (v:ℚ))]
  rw [Int.floor_natCast]
  split_ifs <;> omega

lemma resampleCoord_self (s : ℚ) (d : ℕ) (idx : ℕ) (hs : s ≠ 0) (hd : d ≠ 0) :
    resampleCoord s s d d idx = (idx : ℚ) + 1 / 2 := by
  unfold resampleCoord
  have hdq : (d : ℚ) ≠ 0 := Nat.cast_ne_zero.mpr hd
  have hq : s / (d : ℚ) ≠ 0 := div_ne_zero hs hdq
  rw [mul_div_assoc, div_self hq, mul_one]

lemma clampFloorIdx_corner (d : ℕ) (hd : 1 ≤ d) :
    clampFloorIdx ((d : ℚ) - 1 + 1 / 2) d = d - 1 := by
  have hfl : (⌊(d : ℚ) - 1 + 1 / 2⌋ : ℤ) = (d : ℤ) - 1 := by
    rw [Int.floor_eq_iff]
    constructor
    · push_cast; linarith
    · push_cast; linarith
  unfold clampFloorIdx imin imax
  rw [hfl]
  split_ifs <;> omega

lemma clampCeilIdx_corner (d : ℕ) (hd : 1 ≤ d) :
    clampCeilIdx ((d : ℚ) - 1 + 1 / 2) d = d - 1 := by
  have hcl : (⌈(d : ℚ) - 1 + 1 / 2⌉ : ℤ) = (d : ℤ) := by
    rw [Int.ceil_eq_iff]
    constructor
    · push_cast; linarith
    · push_cast; linarith
  unfold clampCeilIdx imin imax
  rw [hcl]
  split_ifs <;> omega

/-- C8: for every destination voxel and any pair of source and destination
grids and boxes, as long as the source dims are nonempty, the six array
indices computed by `ParamField::resample` (clamped floor and ceil of the
three source coordinates) are all strictly below the source dims, so every
array access of the trilinear interpolation is in bounds and out-of-range
source coordinates are never an error. -/
theorem c8_resample_indices_in_bounds (src mask : ByteField) (k j i : ℕ)
    (hx : 1 ≤ src.nx) (hy : 1 ≤ src.ny) (hz : 1 ≤ src.nz) :
    clampFloorIdx (resamplePx src mask i) src.nx < src.nx ∧
    clampCeilIdx (resamplePx src mask i) src.nx < src.nx ∧
    clampFloorIdx (resamplePy src mask j) src.ny < src.ny ∧
    clampCeilIdx (resamplePy src mask j) src.ny < src.ny ∧
    clampFloorIdx (resamplePz src mask k) src.nz < src.nz ∧
    clampCeilIdx (resamplePz src mask k) src.nz < src.nz := by
  have h : ∀ (q : ℚ) (c : ℕ), 1 ≤ c → clampFloorIdx q c < c ∧ clampCeilIdx q c < c := by
    intro q c hc
    unfold clampFloorIdx clampCeilIdx imin imax
    constructor <;> split_ifs <;> omega
  exact ⟨(h _ _ hx).1, (h _ _ hx).2, (h _ _ hy).1, (h _ _ hy).2, (h _ _ hz).1, (h _ _ hz).2⟩

/-- C8 witness: concrete fields with dims `(1, 1, 2)` at destination voxel
`(0, 0, 0)`. -/
theorem c8_resample_indices_in_bounds_witness :
    clampFloorIdx (resamplePx srcC1 maskC1 0) srcC1.nx < srcC1.nx ∧
    clampCeilIdx (resamplePx srcC1 maskC1 0) srcC1.nx < srcC1.nx ∧
    clampFloorIdx (resamplePy srcC1 maskC1 0) srcC1.ny < srcC1.ny ∧
    clampCeilIdx (resamplePy srcC1 maskC1 0) srcC1.ny < srcC1.ny ∧
    clampFloorIdx (resamplePz srcC1 maskC1 0) srcC1.nz < srcC1.nz ∧
    clampCeilIdx (resamplePz srcC1 maskC1 0) srcC1.nz < srcC1.nz :=
  c8_resample_indices_in_bounds srcC1 maskC1 0 0 0 (by decide) (by decide) (by decide)

/-- C1 counterexample: with a destination grid identical to the source
(same dims and box) and mask value 255, `ParamField::resample` does not
reproduce the source value at grid point `(0, 0, 0)` — the source cell is 0
but the output is 127, the half-offset blend of the two x-neighbours. -/
theorem c1_resample_identity_counterexample :
    resampleByteAt srcC1 maskC1 0 0 0 ≠ (srcC1.data 0 0 0).val := by
  have hc : (⌈(1 : ℚ) / 2⌉ : ℤ) = 1 := by
    rw [Int.ceil_eq_iff]
    norm_num
  have h255 : ((255 : Fin 256)).val = 255 := rfl
  have h0 : ((0 : Fin 256)).val = 0 := rfl
  norm_num [resampleByteAt, resamplePx, resamplePy, resamplePz, resampleCoord,
    srcC1, maskC1, BoundingBox.sizeX, BoundingBox.sizeY, BoundingBox.sizeZ,
    clampFloorIdx, clampCeilIdx, imin, imax, fractQ, truncQ, ratTruncU8,
    hc, h255, h0]

/-- C1 (amended): resampling onto a grid identical to the source maps every
destination cell center to source coordinate `idx + 0.5` per axis, so the
interpolation reads the half-offset blend of neighbouring cells and the
identity holds only where that blend equals the source value; in
particular, at the maximal-index voxel of the grid (where the clamps
collapse both interpolation corners onto the same cell) and mask value 255,
the output equals the source value exactly. -/
theorem c1_resample_identity_at_max_corner (src mask : ByteField)
    (hnz : src.nz = mask.nz) (hny : src.ny = mask.ny) (hnx : src.nx = mask.nx)
    (hbox : src.field_box_mm = mask.field_box_mm)
    (hx : 1 ≤ src.nx) (hy : 1 ≤ src.ny) (hz : 1 ≤ src.nz)
    (hsx : src.field_box_mm.sizeX ≠ 0) (hsy : src.field_box_mm.sizeY ≠ 0)
    (hsz : src.field_box_mm.sizeZ ≠ 0)
    (hm : (mask.data (src.nz - 1) (src.ny - 1) (src.nx - 1)).val = 255) :
    resampleByteAt src mask (src.nz - 1) (src.ny - 1) (src.nx - 1)
      = (src.data (src.nz - 1) (src.ny - 1) (src.nx - 1)).val := by
  have hpx : resamplePx src mask (src.nx - 1) = (src.nx : ℚ) - 1 + 1 / 2 := by
    unfold resamplePx
    rw [← hbox, ← hnx, resampleCoord_self _ _ _ hsx (by omega)]
    rw [Nat.cast_sub hx]
    norm_num
  have hpy : resamplePy src mask (src.ny - 1) = (src.ny : ℚ) - 1 + 1 / 2 := by
    unfold resamplePy
    rw [← hbox, ← hny, resampleCoord_self _ _ _ hsy (by omega)]
    rw [Nat.cast_sub hy]
    norm_num
  have hpz : resamplePz src mask (src.nz - 1) = (src.nz : ℚ) - 1 + 1 / 2 := by
    unfold resamplePz
    rw [← hbox, ← hnz, resampleCoord_self _ _ _ hsz (by omega)]
    rw [Nat.cast_sub hz]
    norm_num
  simp only [resampleByteAt, hpx, hpy, hpz,
    clampFloorIdx_corner _ hx, clampCeilIdx_corner _ hx,
    clampFloorIdx_corner _ hy, clampCeilIdx_corner _ hy,
    clampFloorIdx_corner _ hz, clampCeilIdx_corner _ hz, hm]
  push_cast
  have key : ∀ v ax ay az : ℚ,
      (255 : ℚ) / 255 *
        (((v * (1 - ax) + v * ax) * (1 - ay) + (v * (1 - ax) + v * ax) * ay) * (1 - az) +
          ((v * (1 - ax) + v * ax) * (1 - ay) + (v * (1 - ax) + v * ax) * ay) * az) = v := by
    intro v ax ay az
    ring
  rw [key]
  exact ratTruncU8_natCast _ (Fin.is_le _)

/-- C1 witness: on the concrete identical grids, the maximal-index voxel
`(0, 0, 1)` is reproduced exactly. -/
theorem c1_resample_identity_at_max_corner_witness :
    resampleByteAt srcC1 maskC1 0 0 1 = (srcC1.data 0 0 1).val :=
  c1_resample_identity_at_max_corner srcC1 maskC1 rfl rfl rfl rfl
    (by decide) (by decide) (by decide)
    (by norm_num [srcC1, BoundingBox.sizeX])
    (by norm_num [srcC1, BoundingBox.sizeY])
    (by norm_num [srcC1, BoundingBox.sizeZ])
    rfl

/-! ### G-code rasterizer footprint loop (`voxelize_gcode`, `voxelizer.rs` lines 209-296) -/

/-- The `j_min` bound of a segment's footprint (`voxelizer.rs` lines
226-230): floor of the lower y extent, clamped into `[0, yc - 1]`. -/
def segJMin (startY stopY nozY : ℚ) (yc : ℕ) : ℕ :=
  clampFloorIdx (if startY < stopY then startY - nozY else stopY - nozY) yc

/-- The `j_max` bound of a segment's footprint (`voxelizer.rs` lines
232-236): ceil of the upper y extent, clamped into `[0, yc - 1]`. -/
def segJMax (startY stopY nozY : ℚ) (yc : ℕ) : ℕ :=
  clampCeilIdx (if startY < stopY then stopY + nozY else startY + nozY) yc

/-- The `i_min` bound of a segment's footprint (`voxelizer.rs` lines
238-242). -/
def segIMin (startX stopX nozX : ℚ) (xc : ℕ) : ℕ :=
  clampFloorIdx (if startX < stopX then startX - nozX else stopX - nozX) xc

/-- The `i_max` bound of a segment's footprint (`voxelizer.rs` lines
244-248). -/
def segIMax (startX stopX nozX : ℚ) (xc : ℕ) : ℕ :=
  clampCeilIdx (if startX < stopX then stopX + nozX else startX + nozX) xc

/-- The candidate voxel indices visited by the footprint loop
(`voxelizer.rs` lines 250-251), row-major over `j_min..=j_max` and
`i_min..=i_max`. -/
def segVoxelIdxList (jmin jmax imin imax : ℕ) : List (ℕ × ℕ) :=
  (List.range (jmax + 1 - jmin)).flatMap fun dj =>
    (List.range (imax + 1 - imin)).map fun di => (jmin + dj, imin + di)

/-- Sequential fallible traversal: the loop body either produces a value
per element or aborts at the first error, like the source's
`get_mut(..).ok_or_else(..)` chain. -/
def exceptMapList {α β : Type} (f : α → Except String β) : List α → Except String (List β)
  | [] => Except.ok []
  | a :: t =>
    match f a with
    | Except.error e => Except.error e
    | Except.ok b =>
      match exceptMapList f t with
      | Except.error e => Except.error e
      | Except.ok bs => Except.ok (b :: bs)

/-- The writes performed for one segment by the footprint loop
(`voxelizer.rs` lines 250-294): every candidate voxel is looked up in the
`(yc, xc)` layer view (an out-of-bounds index would be the "out of bounds"
error of line 252) and receives the coverage value; the per-voxel sampling
of lines 254-292 is abstracted into the oracle `cov`. -/
def rasterSegmentWrites (startX startY stopX stopY nozX nozY : ℚ) (yc xc : ℕ)
    (cov : ℕ → ℕ → ℕ) : Except String (List ((ℕ × ℕ) × ℕ)) :=
  exceptMapList
    (fun ji =>
      if ji.1 < yc ∧ ji.2 < xc then Except.ok (ji, cov ji.1 ji.2)
      else Except.error "out of bounds")
    (segVoxelIdxList (segJMin startY stopY nozY yc) (segJMax startY stopY nozY yc)
      (segIMin startX stopX nozX xc) (segIMax startX stopX nozX xc))

/-- The trivial coverage oracle used by concrete instances. -/
def covZero : ℕ → ℕ → ℕ := fun _ _ => 0

lemma clampFloorIdx_lt (q : ℚ) (c : ℕ) (hc : 1 ≤ c) : clampFloorIdx q c < c := by
  unfold clampFloorIdx imin imax
  split_ifs <;> omega

lemma clampCeilIdx_lt (q : ℚ) (c : ℕ) (hc : 1 ≤ c) : clampCeilIdx q c < c := by
  unfold clampCeilIdx imin imax
  split_ifs <;> omega

lemma segVoxelIdxList_bounds (jmin jmax imin imax : ℕ) (ji : ℕ × ℕ)
    (h : ji ∈ segVoxelIdxList jmin jmax imin imax) :
    ji.1 ≤ jmax ∧ ji.2 ≤ imax := by
  unfold segVoxelIdxList at h
  simp only [List.mem_flatMap, List.mem_map, List.mem_range] at h
  obtain ⟨dj, hdj, di, hdi, rfl⟩ := h
  constructor <;> simp <;> omega

lemma exceptMapList_ok {α β : Type} (f : α → Except String β) (l : List α)
    (h : ∀ a ∈ l, ∃ b, f a = Except.ok b) :
    ∃ out, exceptMapList f l = Except.ok out := by
  induction l with
  | nil => exact ⟨[], rfl⟩
  | cons a t ih =>
      obtain ⟨b, hb⟩ := h a (List.mem_cons_self a t)
      obtain ⟨out, hout⟩ := ih fun x hx => h x (List.mem_cons_of_mem a hx)
      exact ⟨b :: out, by unfold exceptMapList; rw [hb, hout]⟩

/-- C3 counterexample: a segment geometry whose candidate voxel index
before clamping falls outside the grid after rounding (the raw floor is
-11 on a 4-cell axis), yet the rasterizer clamps the range into the grid
and returns a successful write at voxel `(0, 0)` instead of the claimed
hard "index out of bounds" error. -/
theorem c3_hard_error_counterexample :
    ⌊(-10 : ℚ) - (1 : ℚ)⌋ < 0 ∧
    rasterSegmentWrites (-10) (-10) (-9) (-9) 1 1 4 4 covZero
      = Except.ok [((0, 0), 0)] := by
  have hc8 : (⌈(-8 : ℚ)⌉ : ℤ) = -8 := by
    rw [show ((-8 : ℚ)) = ((-8 : ℤ) : ℚ) by norm_num, Int.ceil_intCast]
  constructor
  · norm_num
  · norm_num [rasterSegmentWrites, segJMin, segJMax, segIMin, segIMax,
      clampFloorIdx, clampCeilIdx, imin, imax, segVoxelIdxList,
      List.range_succ, exceptMapList, covZero, hc8]

/-- C3 (amended): candidate voxel index ranges are clamped into the grid
bounds before the footprint loop runs, so the "index out of bounds" error
path of the rasterizer is unreachable: for every segment geometry, nozzle
footprint and nonempty grid, the loop returns a successful list of writes
and never the error. -/
theorem c3_raster_never_out_of_bounds
    (startX startY stopX stopY nozX nozY : ℚ) (yc xc : ℕ)
    (cov : ℕ → ℕ → ℕ) (hyc : 1 ≤ yc) (hxc : 1 ≤ xc) :
    ∃ out, rasterSegmentWrites startX startY stopX stopY nozX nozY yc xc cov
      = Except.ok out := by
  apply exceptMapList_ok
  intro ji hji
  have hb := segVoxelIdxList_bounds _ _ _ _ _ hji
  have hj : ji.1 < yc :=
    lt_of_le_of_lt hb.1 (clampCeilIdx_lt _ _ hyc)
  have hi : ji.2 < xc :=
    lt_of_le_of_lt hb.2 (clampCeilIdx_lt _ _ hxc)
  exact ⟨(ji, cov ji.1 ji.2), by rw [if_pos ⟨hj, hi⟩]⟩

/-- C3 witness: a concrete in-grid segment on a 4-cell grid. -/
theorem c3_raster_never_out_of_bounds_witness :
    ∃ out, rasterSegmentWrites 1 1 2 2 (1/2) (1/2) 4 4 covZero = Except.ok out :=
  c3_raster_never_out_of_bounds 1 1 2 2 (1/2) (1/2) 4 4 covZero (by decide) (by decide)

/-! ### Dominant-direction search (`compute_output_stats`, `stats.rs` lines 119-222) -/

/-- A candidate ray direction of `find_max_direction`: one of the six
signed axis-aligned unit vectors (`stats.rs` lines 135-142), or the `t`-th
direction drawn from the Halton(2)/Halton(3) sequences mapped to spherical
angles (`stats.rs` lines 153-165). The Halton direction depends only on the
draw index `t`, never on the voxel, exactly as in the source where the two
sequences are freshly constructed per voxel. -/
inductive RayDir where
  | axisDir (x y z : ℤ) : RayDir
  | haltonDir (t : ℕ) : RayDir
deriving DecidableEq, Repr

/-- The `dirs` array of `find_max_direction` (`stats.rs` lines 135-142), in
source order. -/
def axisDirList : List RayDir :=
  [.axisDir 0 0 1, .axisDir 0 1 0, .axisDir 1 0 0,
   .axisDir 0 0 (-1), .axisDir 0 (-1) 0, .axisDir (-1) 0 0]

/-- One comparison step of `find_max_direction` (`stats.rs` lines 146-150
and 168-172): state is `(max_dir, max_val, last_change)` with the initial
zero vector represented as `none`; on `d > max_val` the direction, value
and improvement are recorded. -/
def updMax (st : Option RayDir × ℚ × ℚ) (dir : RayDir) (d : ℚ) :
    Option RayDir × ℚ × ℚ :=
  if st.2.1 < d then (some dir, d, d - st.2.1) else st

/-- `find_max_direction` from `stats.rs` lines 119-177, with the numeric
raytracer abstracted into the oracle `rt origin_k origin_j origin_i dir`
(the claims are about which rays are cast, not their lengths). The first
loop takes the first `dir_samples` axis directions
(`dirs.iter().take(dir_samples)`) and casts them from voxel `(k, j, i)`;
the second loop runs `max(dir_samples, 6) - 6` times and casts the `t`-th
Halton direction from voxel `(t, j, i)` — its loop variable `k` shadows the
voxel index `k` in the source. -/
def findMaxDirection (rt : ℕ → ℕ → ℕ → RayDir → ℚ) (im : ℕ → ℕ → ℕ → ℕ)
    (dir_samples : ℕ) (k j i : ℕ) : Option RayDir × ℚ × ℚ :=
  if 0 < im k j i then
    let s1 := (axisDirList.take dir_samples).foldl
      (fun st dir => updMax st dir (rt k j i dir)) (none, 0, 0)
    (List.range (max dir_samples axisDirList.length - axisDirList.length)).foldl
      (fun st t => updMax st (.haltonDir t) (rt t j i (.haltonDir t))) s1
  else (none, 0, 0)

/-- The per-voxel direction outputs of `compute_output_stats` (`stats.rs`
lines 180-222): the whole raytracing block runs only when
`dir_samples > 0`, and inside it a voxel is written only when its mask is
positive; otherwise the three outputs stay at their zero initialisation. -/
def computeDirOutputs (rt : ℕ → ℕ → ℕ → RayDir → ℚ) (im : ℕ → ℕ → ℕ → ℕ)
    (dir_samples : ℕ) (k j i : ℕ) : Option RayDir × ℚ × ℚ :=
  if 0 < dir_samples ∧ 0 < im k j i then findMaxDirection rt im dir_samples k j i
  else (none, 0, 0)

/-- The list of `(origin, direction)` ray casts performed by
`find_max_direction` for voxel `(k, j, i)`, read off the two loops of
`stats.rs` lines 144-173. -/
def dirCasts (dir_samples k j i : ℕ) : List ((ℕ × ℕ × ℕ) × RayDir) :=
  (axisDirList.take dir_samples).map (fun d => ((k, j, i), d)) ++
  (List.range (max dir_samples axisDirList.length - axisDirList.length)).map
    (fun t => ((t, j, i), RayDir.haltonDir t))

/-- The ray casts asserted by claim C2, following the spec words: all six
axis directions plus `max(0, dir_samples - 6)` Halton directions, every one
cast from the voxel `(k, j, i)` itself. -/
def claimDirCasts (dir_samples k j i : ℕ) : List ((ℕ × ℕ × ℕ) × RayDir) :=
  axisDirList.map (fun d => ((k, j, i), d)) ++
  (List.range (dir_samples - 6)).map (fun t => ((k, j, i), RayDir.haltonDir t))

/-- C2 counterexample: with `dir_samples = 4` only the first four axis
directions are evaluated (not all six), and with `dir_samples = 7` at voxel
`k = 5` the extra Halton ray is cast from voxel `(0, j, i)` (the shadowed
loop counter), not from the voxel itself. -/
theorem c2_dir_casts_counterexample :
    dirCasts 4 0 0 0 ≠ claimDirCasts 4 0 0 0 ∧
    dirCasts 7 5 0 0 ≠ claimDirCasts 7 5 0 0 := by
  decide

/-- C2 (amended): for a voxel with positive design mask,
`find_max_direction` is exactly the max-tracking fold of the raytrace
oracle over the cast list `dirCasts`: the first `min(dir_samples, 6)` axis
directions cast from the voxel's own center, then `max(dir_samples, 6) - 6`
Halton directions — deterministic and independent of the voxel index —
each cast from voxel `(t, j, i)` where `t` is the draw counter (the loop
variable shadows the voxel's `k`). -/
theorem c2_dir_casts (rt : ℕ → ℕ → ℕ → RayDir → ℚ) (im : ℕ → ℕ → ℕ → ℕ)
    (n k j i k2 j2 i2 : ℕ) (hm : 0 < im k j i) :
    findMaxDirection rt im n k j i
      = (dirCasts n k j i).foldl
          (fun st c => updMax st c.2 (rt c.1.1 c.1.2.1 c.1.2.2 c.2)) (none, 0, 0) ∧
    (dirCasts n k j i).map Prod.snd = (dirCasts n k2 j2 i2).map Prod.snd := by
  constructor
  · unfold findMaxDirection dirCasts
    rw [if_pos hm, List.foldl_append, List.foldl_map, List.foldl_map]
  · unfold dirCasts
    simp [List.map_map, Function.comp]

/-- C2 witness: concrete oracle, mask and voxel. -/
theorem c2_dir_casts_witness :
    findMaxDirection (fun _ _ _ _ => 0) (fun _ _ _ => 255) 7 5 0 0
      = (dirCasts 7 5 0 0).foldl
          (fun st c => updMax st c.2 ((fun _ _ _ (_ : RayDir) => (0:ℚ)) c.1.1 c.1.2.1 c.1.2.2 c.2))
          (none, 0, 0) ∧
    (dirCasts 7 5 0 0).map Prod.snd = (dirCasts 7 1 2 3).map Prod.snd :=
  c2_dir_casts (fun _ _ _ _ => 0) (fun _ _ _ => 255) 7 5 0 0 1 2 3 (by decide)

lemma foldl_updMax_nonneg {α : Type} (l : List α) (g : α → RayDir) (v : α → ℚ)
    (st : Option RayDir × ℚ × ℚ) (h : 0 ≤ st.2.1) :
    0 ≤ (l.foldl (fun st a => updMax st (g a) (v a)) st).2.1 := by
  induction l generalizing st with
  | nil => exact h
  | cons a t ih =>
      rw [List.foldl_cons]
      apply ih
      unfold updMax
      split_ifs with hlt
      · exact le_of_lt (lt_of_le_of_lt h hlt)
      · exact h

lemma foldl_updMax_dir {α : Type} (l : List α) (g : α → RayDir) (v : α → ℚ)
    (st : Option RayDir × ℚ × ℚ) :
    (l.foldl (fun st a => updMax st (g a) (v a)) st).1 = st.1 ∨
    ∃ a ∈ l, (l.foldl (fun st a => updMax st (g a) (v a)) st).1 = some (g a) := by
  induction l generalizing st with
  | nil => exact Or.inl rfl
  | cons a t ih =>
      rw [List.foldl_cons]
      rcases ih (updMax st (g a) (v a)) with h | h
      · by_cases hlt : st.2.1 < v a
        · refine Or.inr ⟨a, List.mem_cons_self a t, ?_⟩
          rw [h]
          unfold updMax
          rw [if_pos hlt]
        · refine Or.inl ?_
          rw [h]
          unfold updMax
          rw [if_neg hlt]
      · obtain ⟨b, hb, hres⟩ := h
        exact Or.inr ⟨b, List.mem_cons_of_mem a hb, hres⟩

/-- C6: for every voxel with zero design mask, the direction, length and
change outputs of `compute_output_stats` stay at zero, and for every voxel
(regardless of mask) the direction-length output is non-negative. -/
theorem c6_mask_zero_and_length_nonneg (rt : ℕ → ℕ → ℕ → RayDir → ℚ)
    (im : ℕ → ℕ → ℕ → ℕ) (n k j i : ℕ) :
    (im k j i = 0 → computeDirOutputs rt im n k j i = (none, 0, 0)) ∧
    0 ≤ (computeDirOutputs rt im n k j i).2.1 := by
  constructor
  · intro hz
    unfold computeDirOutputs
    rw [if_neg]
    intro hc
    omega
  · unfold computeDirOutputs
    split_ifs with hc
    · unfold findMaxDirection
      split_ifs with hm
      · exact foldl_updMax_nonneg _ _ _ _
          (foldl_updMax_nonneg _ _ _ _ le_rfl)
      · norm_num
    · norm_num

/-- C6 witness: a concrete zero-mask voxel. -/
theorem c6_mask_zero_and_length_nonneg_witness :
    ((fun (_ _ _ : ℕ) => 0) 0 0 0 = 0 →
      computeDirOutputs (fun _ _ _ _ => 1) (fun _ _ _ => 0) 6 0 0 0 = (none, 0, 0)) ∧
    0 ≤ (computeDirOutputs (fun _ _ _ _ => 1) (fun _ _ _ => 0) 6 0 0 0).2.1 :=
  c6_mask_zero_and_length_nonneg (fun _ _ _ _ => 1) (fun _ _ _ => 0) 6 0 0 0

/-- Squared Euclidean norm of a rational 3-vector. -/
def normSq (v : ℚ × ℚ × ℚ) : ℚ := v.1 * v.1 + v.2.1 * v.2.1 + v.2.2 * v.2.2

/-- Interpretation of a stored direction as the vector written into the
`dir_field` lanes (`stats.rs` lines 210-212): the zero initialisation for
`none`, the unit axis vectors, and the (voxel-independent) value of the
`t`-th Halton direction given by `hv`. -/
def dirVecOf (hv : ℕ → ℚ × ℚ × ℚ) : Option RayDir → ℚ × ℚ × ℚ
  | none => (0, 0, 0)
  | some (.axisDir a b c) => ((a : ℚ), (b : ℚ), (c : ℚ))
  | some (.haltonDir t) => hv t

/-- C9 counterexample: with `dir_samples = 0` the raytracing block is
skipped entirely, so a voxel whose design-mask value is 255 still holds the
zero vector, of norm 0, not a unit direction. -/
theorem c9_unit_norm_counterexample :
    0 < (fun (_ _ _ : ℕ) => 255) 0 0 0 ∧
    normSq (dirVecOf (fun _ => (0, 0, 1))
      (computeDirOutputs (fun _ _ _ _ => 0) (fun _ _ _ => 255) 0 0 0 0).1) ≠ 1 := by
  constructor
  · decide
  · norm_num [computeDirOutputs, dirVecOf, normSq]

/-- C9 (amended): the dominant-direction output is either the zero vector
(kept when `dir_samples = 0`, when the mask is zero, or when no candidate
ray improves on the initial zero length) or one of the candidate directions
actually cast; each of the six axis-aligned candidates is a unit vector. -/
theorem c9_dir_norm (rt : ℕ → ℕ → ℕ → RayDir → ℚ) (im : ℕ → ℕ → ℕ → ℕ)
    (hv : ℕ → ℚ × ℚ × ℚ) (n k j i : ℕ) :
    ((computeDirOutputs rt im n k j i).1 = none ∨
      (computeDirOutputs rt im n k j i).1 ∈ (dirCasts n k j i).map (fun c => some c.2)) ∧
    (∀ d ∈ axisDirList, normSq (dirVecOf hv (some d)) = 1) := by
  constructor
  · unfold computeDirOutputs
    split_ifs with hc
    · unfold findMaxDirection
      split_ifs with hm
      · rcases foldl_updMax_dir
          (List.range (max n axisDirList.length - axisDirList.length))
          (fun t => RayDir.haltonDir t) (fun t => rt t j i (.haltonDir t)) _ with h | h
        · rcases foldl_updMax_dir (axisDirList.take n)
            (fun d => d) (fun d => rt k j i d) (none, 0, 0) with h2 | h2
          · exact Or.inl (h.trans h2)
          · obtain ⟨d, hd, hres⟩ := h2
            refine Or.inr ?_
            rw [h, hres]
            simp only [dirCasts, List.map_append, List.mem_append, List.map_map]
            exact Or.inl (List.mem_map.mpr ⟨d, hd, rfl⟩)
        · obtain ⟨t, ht, hres⟩ := h
          refine Or.inr ?_
          rw [hres]
          simp only [dirCasts, List.map_append, List.mem_append, List.map_map]
          exact Or.inr (List.mem_map.mpr ⟨t, ht, rfl⟩)
      · exact Or.inl rfl
    · exact Or.inl rfl
  · intro d hd
    fin_cases hd <;> norm_num [normSq, dirVecOf]

/-- C9 witness: concrete oracle, mask, Halton interpretation and voxel. -/
theorem c9_dir_norm_witness :
    ((computeDirOutputs (fun _ _ _ _ => 1) (fun _ _ _ => 255) 6 0 0 0).1 = none ∨
      (computeDirOutputs (fun _ _ _ _ => 1) (fun _ _ _ => 255) 6 0 0 0).1
        ∈ (dirCasts 6 0 0 0).map (fun c => some c.2)) ∧
    (∀ d ∈ axisDirList, normSq (dirVecOf (fun _ => (0, 0, 1)) (some d)) = 1) :=
  c9_dir_norm (fun _ _ _ _ => 1) (fun _ _ _ => 255) (fun _ => (0, 0, 1)) 6 0 0 0

/-! ### Array-to-field conversion (`ParamBag::convert_to_field`, `param_bag.rs` lines 91-116) -/

/-- Storage variants of `ParamArray` (`param_array.rs` lines 10-14), float
values as exact rationals. -/
inductive ArrStorage where
  | boolArr (v : List Bool) : ArrStorage
  | floatArr (v : List ℚ) : ArrStorage
  | stringArr (v : List String) : ArrStorage
deriving DecidableEq, Repr

/-- `ParamArray::as_f64_slice` (`param_array.rs` lines 122-131): floats as
is, bools as 0/1, strings unsupported. -/
def asF64Slice : ArrStorage → Option (List ℚ)
  | .floatArr v => some v
  | .boolArr v => some (v.map fun b => if b then 1 else 0)
  | .stringArr _ => none

/-- The part of a `ParamField` that `derive_from_array` depends on and
produces: the z dimension of the grid and, for a derived float field, the
per-layer value (the derived field fills each z slice with one value). -/
structure MiniField where
  zdim : ℕ
  zvals : List ℚ
deriving DecidableEq, Repr

/-- One layer value of `ParamField::derive_from_array` (`param_field.rs`
lines 276-289): `none` models the Rust index-out-of-bounds panic when an
interpolation index reaches the slice length (`src_idx_p1` is clamped to
`src.len()`, not `src.len() - 1`). The `as usize` cast saturates negative
floors at zero. -/
def deriveLayerVal (zdim : ℕ) (src : List ℚ) (z : ℕ) : Option ℚ :=
  let norm_z : ℚ := ((z : ℚ) + 1 / 2) / ((zdim : ℚ) + 1)
  let src_z : ℚ := norm_z * ((src.length : ℚ) + 1) - 1 / 2
  let src_idx : ℕ := (imax ⌊src_z⌋ 0).toNat
  let src_idx_p1 : ℕ := min (src_idx + 1) src.length
  match src.get? src_idx, src.get? src_idx_p1 with
  | some a, some b => some (a * (1 - fractQ src_z) + b * fractQ src_z)
  | _, _ => none

/-- Sequential fallible map, aborting at the first failing element (a Rust
panic aborts the surrounding loop). -/
def optionMapList {α β : Type} (f : α → Option β) : List α → Option (List β)
  | [] => some []
  | a :: t =>
    match f a with
    | none => none
    | some b =>
      match optionMapList f t with
      | none => none
      | some bs => some (b :: bs)

/-- `ParamField::derive_from_array` (`param_field.rs` lines 271-295) for a
field of z dimension `zdim`: one interpolated value per layer; `none` when
any layer's computation panics out of bounds. -/
def deriveFromArray (zdim : ℕ) (src : List ℚ) : Option (List ℚ) :=
  optionMapList (deriveLayerVal zdim src) (List.range zdim)

/-- The parameter bag (`param_bag.rs` lines 20-25) restricted to what
`convert_to_field` touches; the hash maps are modelled as association
lists, with `values().next()` the head of the field list (deterministic for
the single-field bags evaluated here). -/
structure MiniBag where
  param_fields : List (String × MiniField)
  param_arrays : List (String × ArrStorage)
deriving DecidableEq, Repr

/-- `HashMap::insert`: replace the first binding of the key or append. -/
def assocInsert {β : Type} (name : String) (v : β) :
    List (String × β) → List (String × β)
  | [] => [(name, v)]
  | p :: t => if p.1 = name then (name, v) :: t else p :: assocInsert name v t

/-- `HashMap::remove`: drop the bindings of the key. -/
def assocRemove {β : Type} (name : String) (l : List (String × β)) :
    List (String × β) :=
  l.filter fun p => decide (p.1 ≠ name)

/-- Outcome of `ParamBag::convert_to_field`: a successfully updated bag, an
error message with the bag untouched, or a Rust index-out-of-bounds panic
inside `derive_from_array`. -/
inductive ConvRes where
  | okBag (bag : MiniBag) : ConvRes
  | errMsg (msg : String) : ConvRes
  | oob : ConvRes
deriving DecidableEq, Repr

/-- `ParamBag::convert_to_field` (`param_bag.rs` lines 91-116): look up the
array; derive a field from it using the first field of the bag; on success
insert the derived field under the name and remove the array; with no such
array, no field to derive from, or a non-float array, return the error and
leave the bag untouched; `oob` is the panic inside `derive_from_array`. -/
def convertToField (bag : MiniBag) (name : String) : ConvRes :=
  match bag.param_arrays.lookup name with
  | none => ConvRes.errMsg ("param array " ++ name ++ " not found")
  | some arr =>
    match bag.param_fields.head? with
    | none => ConvRes.errMsg ("cannot derive field from param array " ++ name)
    | some fld =>
      match asF64Slice arr with
      | none => ConvRes.errMsg ("cannot derive field from param array " ++ name)
      | some src =>
        match deriveFromArray fld.2.zdim src with
        | none => ConvRes.oob
        | some vals =>
          ConvRes.okBag
            { param_fields := assocInsert name ⟨fld.2.zdim, vals⟩ bag.param_fields
              param_arrays := assocRemove name bag.param_arrays }

/-- A bag with one field of z dimension 1 and one float array of length 1:
the failing input for C10. -/
def bagC10 : MiniBag :=
  { param_fields := [("output_geometry", ⟨1, [0]⟩)]
    param_arrays := [("infill_theta", ArrStorage.floatArr [3])] }

/-- C10: on the failing input (first field of z dimension 1, float array of
length 1), `convert_to_field` neither succeeds nor returns an error — it
panics with an index out of bounds, because `derive_from_array` clamps
`src_idx + 1` to `src.len()` instead of `src.len() - 1` and then reads
`src[src.len()]`. -/
theorem c10_convert_to_field_panics :
    convertToField bagC10 "infill_theta" = ConvRes.oob := by
  norm_num [convertToField, bagC10, asF64Slice, deriveFromArray, optionMapList,
    deriveLayerVal, imax, fractQ, truncQ, List.range_succ, List.lookup]

/-! ### An `f32` model with IEEE special values

The degenerate bounding-box path of the rasterizer (claim C7) flows through
`f32` infinities and NaNs, so a model of the special values is needed.
Finite values are exact rationals; a finite result beyond the `f32` range
overflows to the infinities. Zero is unsigned (the sign of a zero never
influences a branch on the evaluated path: `-0.0` and `0.0` compare equal
and both divide into NaN or zero the same way here). Square root is kept
abstract (a parameter constrained at 0 and NaN, the only points reached).
-/

/-- An `f32` value: exact finite rational, infinities, or NaN. -/
inductive F where
  | fin (q : ℚ) : F
  | pinf : F
  | ninf : F
  | nanv : F
deriving DecidableEq, Repr

/-- Wrap an exact finite result, overflowing to the infinities beyond the
`f32` range. -/
def finChecked (q : ℚ) : F :=
  if f32Max < q then F.pinf else if q < -f32Max then F.ninf else F.fin q

/-- IEEE `f32` addition on the model. -/
def addF : F → F → F
  | F.nanv, _ => F.nanv
  | _, F.nanv => F.nanv
  | F.pinf, F.ninf => F.nanv
  | F.ninf, F.pinf => F.nanv
  | F.pinf, _ => F.pinf
  | _, F.pinf => F.pinf
  | F.ninf, _ => F.ninf
  | _, F.ninf => F.ninf
  | F.fin a, F.fin b => finChecked (a + b)

/-- IEEE `f32` subtraction on the model. -/
def subF : F → F → F
  | F.nanv, _ => F.nanv
  | _, F.nanv => F.nanv
  | F.pinf, F.pinf => F.nanv
  | F.ninf, F.ninf => F.nanv
  | F.pinf, _ => F.pinf
  | _, F.ninf => F.pinf
  | F.ninf, _ => F.ninf
  | _, F.pinf => F.ninf
  | F.fin a, F.fin b => finChecked (a - b)

/-- IEEE `f32` multiplication on the model (`inf * 0 = NaN`). -/
def mulF : F → F → F
  | F.nanv, _ => F.nanv
  | _, F.nanv => F.nanv
  | F.pinf, F.pinf => F.pinf
  | F.pinf, F.ninf => F.ninf
  | F.ninf, F.pinf => F.ninf
  | F.ninf, F.ninf => F.pinf
  | F.pinf, F.fin b => if b = 0 then F.nanv else if 0 < b then F.pinf else F.ninf
  | F.fin a, F.pinf => if a = 0 then F.nanv else if 0 < a then F.pinf else F.ninf
  | F.ninf, F.fin b => if b = 0 then F.nanv else if 0 < b then F.ninf else F.pinf
  | F.fin a, F.ninf => if a = 0 then F.nanv else if 0 < a then F.ninf else F.pinf
  | F.fin a, F.fin b => finChecked (a * b)

/-- IEEE `f32` division on the model (`0 / 0 = NaN`, finite over infinite
is zero, nonzero over zero is a signed infinity). -/
def divF : F → F → F
  | F.nanv, _ => F.nanv
  | _, F.nanv => F.nanv
  | F.pinf, F.pinf => F.nanv
  | F.pinf, F.ninf => F.nanv
  | F.ninf, F.pinf => F.nanv
  | F.ninf, F.ninf => F.nanv
  | F.fin _, F.pinf => F.fin 0
  | F.fin _, F.ninf => F.fin 0
  | F.pinf, F.fin b => if 0 ≤ b then F.pinf else F.ninf
  | F.ninf, F.fin b => if 0 ≤ b then F.ninf else F.pinf
  | F.fin a, F.fin b =>
    if b = 0 then (if a = 0 then F.nanv else if 0 < a then F.pinf else F.ninf)
    else finChecked (a / b)

/-- IEEE `f32` negation on the model. -/
def negF : F → F
  | F.fin a => F.fin (-a)
  | F.pinf => F.ninf
  | F.ninf => F.pinf
  | F.nanv => F.nanv

/-- `f32::abs` on the model. -/
def absF : F → F
  | F.fin a => F.fin |a|
  | F.pinf => F.pinf
  | F.ninf => F.pinf
  | F.nanv => F.nanv

/-- IEEE `f32` strict less-than (false whenever either side is NaN). -/
def ltF : F → F → Bool
  | F.nanv, _ => false
  | _, F.nanv => false
  | F.fin a, F.fin b => decide (a < b)
  | F.fin _, F.pinf => true
  | F.pinf, F.fin _ => false
  | F.ninf, F.fin _ => true
  | F.fin _, F.ninf => false
  | F.pinf, F.pinf => false
  | F.ninf, F.ninf => false
  | F.ninf, F.pinf => true
  | F.pinf, F.ninf => false

/-- `f32::floor` on the model. -/
def floorF : F → F
  | F.fin a => F.fin ⌊a⌋
  | x => x

/-- `f32::ceil` on the model. -/
def ceilF : F → F
  | F.fin a => F.fin ⌈a⌉
  | x => x

/-- Rust saturating cast `f32 as isize` on the model (NaN casts to 0). -/
def asIsizeF : F → ℤ
  | F.fin q => imin (imax (truncQ q) (-(2 ^ 63))) (2 ^ 63 - 1)
  | F.pinf => 2 ^ 63 - 1
  | F.ninf => -(2 ^ 63)
  | F.nanv => 0

/-- `f32::min` on the model (a NaN argument yields the other argument). -/
def fminF : F → F → F
  | F.nanv, b => b
  | a, F.nanv => a
  | a, b => if ltF a b then a else b

/-- `f32::max` on the model (a NaN argument yields the other argument). -/
def fmaxF : F → F → F
  | F.nanv, b => b
  | a, F.nanv => a
  | a, b => if ltF a b then b else a

/-- Rust saturating cast `f32 as u8` on the model (NaN casts to 0). -/
def fAsU8 : F → ℕ
  | F.fin q => ratTruncU8 q
  | F.pinf => 255
  | F.ninf => 0
  | F.nanv => 0

/-- Componentwise sum of 2-vectors. -/
def addF2 (a b : F × F) : F × F := (addF a.1 b.1, addF a.2 b.2)

/-- Componentwise difference of 2-vectors. -/
def subF2 (a b : F × F) : F × F := (subF a.1 b.1, subF a.2 b.2)

/-- Scalar times 2-vector. -/
def scaleF2 (s : F) (a : F × F) : F × F := (mulF s a.1, mulF s a.2)

/-- Dot product of 2-vectors. -/
def dotF2 (a b : F × F) : F := addF (mulF a.1 b.1) (mulF a.2 b.2)

/-- Componentwise division of 2-vectors (`component_div`). -/
def compDivF2 (a b : F × F) : F × F := (divF a.1 b.1, divF a.2 b.2)

/-- Euclidean norm of a 2-vector, with the square root given by `sq`. -/
def normF2 (sq : F → F) (a : F × F) : F := sq (addF (mulF a.1 a.1) (mulF a.2 a.2))

/-- Vector normalization of a 2-vector (`nalgebra::normalize`). -/
def normalizeF2 (sq : F → F) (a : F × F) : F × F :=
  (divF a.1 (normF2 sq a), divF a.2 (normF2 sq a))

/-! ### G-code rasterizer, degenerate-box path (`voxelize_gcode`, `voxelizer.rs` lines 41-298)

The parse phase of `voxelize_gcode` (lines 41-156) consumes the external
G-code tokenizer's output in lockstep with the raw lines; it is embedded
here as a fold over the corresponding event list (layer markers, `G1`
moves, the nozzle-diameter parameter line). The rasterization phase is
embedded over the `f32` model `F`, because a single-layer trace leaves the
bounding-box fold empty and the arithmetic flows through infinities and
NaNs.
-/

/-- A bounding box over the `f32` model. -/
structure BBoxF where
  min_x : F
  min_y : F
  min_z : F
  max_x : F
  max_y : F
  max_z : F
deriving DecidableEq, Repr

/-- The initial accumulator of the `From<iterator>` constructor
(`utils.rs` lines 50-55), over `F`. -/
def bboxFEmpty : BBoxF :=
  ⟨F.fin f32Max, F.fin f32Max, F.fin f32Max,
   F.fin f32Min, F.fin f32Min, F.fin f32Min⟩

/-- One endpoint step of the `From<iterator>` constructor (`utils.rs` lines
57-66), over `F` with `f32::min`/`f32::max`. -/
def bboxStepF (bb : BBoxF) (pt : Vec3) : BBoxF :=
  ⟨fminF bb.min_x (F.fin pt.x), fminF bb.min_y (F.fin pt.y), fminF bb.min_z (F.fin pt.z),
   fmaxF bb.max_x (F.fin pt.x), fmaxF bb.max_y (F.fin pt.y), fmaxF bb.max_z (F.fin pt.z)⟩

/-- The `From<iterator>` constructor of `BoundingBox` over `F`. -/
def bboxFromSegmentsF (l : List (Vec3 × Vec3)) : BBoxF :=
  l.foldl (fun bb p => bboxStepF (bboxStepF bb p.1) p.2) bboxFEmpty

/-- The bounding-box dilation of `voxelize_gcode` (`voxelizer.rs` lines
167-174) over `F`. -/
def dilateBBoxF (bb : BBoxF) (noz : ℚ) : BBoxF :=
  ⟨subF bb.min_x (F.fin (noz / 2)), subF bb.min_y (F.fin (noz / 2)),
   subF bb.min_z (F.fin (2 * noz / 2)),
   addF bb.max_x (F.fin (noz / 2)), addF bb.max_y (F.fin (noz / 2)),
   addF bb.max_z (F.fin (noz / 2))⟩

/-- One event of the G-code trace as consumed by the parse loop of
`voxelize_gcode` (`voxelizer.rs` lines 58-156): the comment layer markers,
a `G1` move with optional `X`/`Y`/`Z`/`E` arguments, or the
`nozzle_diameter_mm_0` parameter comment. -/
inductive GEvent where
  | layerBegin : GEvent
  | layerEnd : GEvent
  | moveG1 (x y z e : Option ℚ) : GEvent
  | paramNozzle (v : ℚ) : GEvent
deriving DecidableEq, Repr

/-- The mutable state of the parse loop of `voxelize_gcode` (`voxelizer.rs`
lines 47-56). -/
structure ParseState where
  current_x : Option ℚ
  current_y : Option ℚ
  current_z : Option ℚ
  layer : Option ℕ
  current_layer : ℕ
  nozzle_diameter : ℚ
  segments : List Seg
deriving DecidableEq, Repr

/-- One step of the parse loop (`voxelizer.rs` lines 58-156): layer markers
set/clear the layer tag and count layers; a `G1` move with all three
coordinates already known and a positive `E` argument records a segment
tagged with the current layer, then the coordinate cursors absorb the
move's arguments. -/
def parseStep (st : ParseState) : GEvent → ParseState
  | GEvent.layerBegin => { st with layer := some st.current_layer }
  | GEvent.layerEnd => { st with layer := none, current_layer := st.current_layer + 1 }
  | GEvent.paramNozzle v => { st with nozzle_diameter := v }
  | GEvent.moveG1 x y z e =>
    let segments :=
      match st.current_x, st.current_y, st.current_z with
      | some cx, some cy, some cz =>
        let new_x := x.getD cx
        let new_y := y.getD cy
        let new_z := z.getD cz
        match e with
        | some ev =>
          if 0 < ev then
            st.segments ++
              [{ start := ⟨cx, cy, cz⟩, stop := ⟨new_x, new_y, new_z⟩, layer := st.layer }]
          else st.segments
        | none => st.segments
      | _, _, _ => st.segments
    { st with
      segments := segments
      current_x := match x with | some v => some v | none => st.current_x
      current_y := match y with | some v => some v | none => st.current_y
      current_z := match z with | some v => some v | none => st.current_z }

/-- The initial parse state (`voxelizer.rs` lines 47-56). -/
def parseInit : ParseState := ⟨none, none, none, none, 0, 0, []⟩

/-- The whole parse phase of `voxelize_gcode` as a fold over the trace. -/
def parseTrace (events : List GEvent) : ParseState := events.foldl parseStep parseInit

/-- The per-run quantities of the rasterization phase (`voxelizer.rs` lines
159-207): bounding box minimum and size, the cells-per-axis vector `c`, and
the nozzle footprint in cell units. -/
structure RasterEnv where
  bbox_min : F × F × F
  bbox_size : F × F × F
  cvec : F × F × F
  nozzle_dims : F × F
deriving DecidableEq, Repr

/-- Build the rasterization environment (`voxelizer.rs` lines 159-207):
bounding box over the layer-positive segments, dilated; grid of
`current_layer` cells per axis; `nozzle_dimensions =
c.xy().component_div(bbox_size.xy()) * nozzle_diameter / 2`. -/
def rasterEnv (segments : List Seg) (noz : ℚ) (n : ℕ) : RasterEnv :=
  let pb := dilateBBoxF
    (bboxFromSegmentsF ((segments.filter segLayerPos).map fun s => (s.start, s.stop))) noz
  let bsize := (subF pb.max_x pb.min_x, subF pb.max_y pb.min_y, subF pb.max_z pb.min_z)
  let c : F × F × F := (F.fin (n : ℚ), F.fin (n : ℚ), F.fin (n : ℚ))
  { bbox_min := (pb.min_x, pb.min_y, pb.min_z)
    bbox_size := bsize
    cvec := c
    nozzle_dims :=
      (divF (mulF (divF c.1 bsize.1) (F.fin noz)) (F.fin 2),
       divF (mulF (divF c.2.1 bsize.2.1) (F.fin noz)) (F.fin 2)) }

/-- A point in millimetres mapped into grid coordinates
(`voxelizer.rs` lines 215-216): `(p - bbox_min) / bbox_size * c`, keeping
the x/y components. -/
def toGridXY (env : RasterEnv) (p : Vec3) : F × F :=
  (mulF (divF (subF (F.fin p.x) env.bbox_min.1) env.bbox_size.1) env.cvec.1,
   mulF (divF (subF (F.fin p.y) env.bbox_min.2.1) env.bbox_size.2.1) env.cvec.2.1)

/-- The per-segment geometry of the footprint loop (`voxelizer.rs` lines
215-248): transformed endpoints, direction, the thickening normal, and the
clamped index ranges. -/
structure SegGeom where
  startP : F × F
  endP : F × F
  d : F × F
  normal_vec : F × F
  j_min : ℕ
  j_max : ℕ
  i_min : ℕ
  i_max : ℕ
deriving DecidableEq, Repr

/-- Compute the per-segment geometry (`voxelizer.rs` lines 215-248). -/
def segGeom (sq : F → F) (env : RasterEnv) (yc xc : ℕ) (seg : Seg) : SegGeom :=
  let startP := toGridXY env seg.start
  let endP := toGridXY env seg.stop
  let d := subF2 endP startP
  let normal_vec :=
    if ltF (absF d.1) (absF d.2) then normalizeF2 sq (negF d.2, d.1)
    else normalizeF2 sq (d.2, negF d.1)
  let ny := env.nozzle_dims.2
  let nx := env.nozzle_dims.1
  { startP := startP, endP := endP, d := d, normal_vec := normal_vec
    j_min := (imin (imax (asIsizeF (floorF
      (if ltF startP.2 endP.2 then subF startP.2 ny else subF endP.2 ny))) 0)
      ((yc : ℤ) - 1)).toNat
    j_max := (imin (imax (asIsizeF (ceilF
      (if ltF startP.2 endP.2 then addF endP.2 ny else addF startP.2 ny))) 0)
      ((yc : ℤ) - 1)).toNat
    i_min := (imin (imax (asIsizeF (floorF
      (if ltF startP.1 endP.1 then subF startP.1 nx else subF endP.1 nx))) 0)
      ((xc : ℤ) - 1)).toNat
    i_max := (imin (imax (asIsizeF (ceilF
      (if ltF startP.1 endP.1 then addF endP.1 nx else addF startP.1 nx))) 0)
      ((xc : ℤ) - 1)).toNat }

/-- The sample location of the coverage loop (`voxelizer.rs` lines
254-271): the voxel center for the first sample, the jittered center for
the rest; `jit` abstracts the seeded `SmallRng` stream, two draws per
sample. -/
def samplePoint (jit : ℕ → F) (j i l : ℕ) : F × F :=
  if l = 0 then (F.fin ((i : ℚ) + 1 / 2), F.fin ((j : ℚ) + 1 / 2))
  else (addF (F.fin ((i : ℚ) + 1 / 2)) (jit (2 * l)),
        addF (F.fin ((j : ℚ) + 1 / 2)) (jit (2 * l + 1)))

/-- The point-in-thickened-segment test (`voxelizer.rs` lines 273-285):
project the sample onto the segment; beyond either endpoint compare the
distance to that endpoint against the nozzle footprint, otherwise compare
the normal component of the offset. -/
def sampleIsIn (sq : F → F) (g : SegGeom) (noz : F × F) (p : F × F) : Bool :=
  let s := divF (dotF2 (subF2 p g.startP) g.d) (dotF2 g.d g.d)
  if ltF (F.fin 1) s then
    ltF (normF2 sq (compDivF2 (subF2 p g.endP) noz)) (F.fin 1)
  else if ltF s (F.fin 0) then
    ltF (normF2 sq (compDivF2 (subF2 p g.startP) noz)) (F.fin 1)
  else
    let proj := addF2 g.startP (scaleF2 s (subF2 g.endP g.startP))
    ltF (normF2 sq (compDivF2
      (scaleF2 (dotF2 (subF2 p proj) g.normal_vec) g.normal_vec) noz)) (F.fin 1)

/-- The coverage value one segment adds to one voxel (`voxelizer.rs` lines
257-292): the fraction of samples inside, scaled to `[0, 255]` and cast to
`u8`. -/
def segCellValue (sq : F → F) (jit : ℕ → F) (samples : ℕ) (g : SegGeom)
    (noz : F × F) (j i : ℕ) : ℕ :=
  let cnt := ((List.range samples).filter fun l =>
    sampleIsIn sq g noz (samplePoint jit j i l)).length
  fAsU8 (mulF (divF (F.fin (cnt : ℚ)) (F.fin (samples : ℚ))) (F.fin 255))

/-- The value of voxel `(k, j, i)` after rasterization (`voxelizer.rs`
lines 209-296): saturating sum, over the segments of layer `k` in trace
order, of the coverage each segment's footprint loop adds to the voxel
(exactly when the voxel lies in the segment's clamped index range). -/
def voxValueAt (sq : F → F) (jit : ℕ → F) (samples : ℕ) (segments : List Seg)
    (noz : ℚ) (n : ℕ) (k j i : ℕ) : ℕ :=
  let env := rasterEnv segments noz n
  (segments.filter fun s => decide (s.layer = some k)).foldl
    (fun v seg =>
      let g := segGeom sq env n n seg
      if g.j_min ≤ j ∧ j ≤ g.j_max ∧ g.i_min ≤ i ∧ i ≤ g.i_max then
        satAdd v (segCellValue sq jit samples g env.nozzle_dims j i)
      else v) 0

/-- The grid dims `(zc, yc, xc)` of `voxelize_gcode` (`voxelizer.rs` lines
186-204): one cell per detected layer on every axis. -/
def voxelizeDims (events : List GEvent) : ℕ × ℕ × ℕ :=
  let st := parseTrace events
  (st.current_layer, st.current_layer, st.current_layer)

/-- The value of output voxel `(k, j, i)` of `voxelize_gcode` on a trace. -/
def voxelizeValueAt (sq : F → F) (jit : ℕ → F) (samples : ℕ)
    (events : List GEvent) (k j i : ℕ) : ℕ :=
  let st := parseTrace events
  voxValueAt sq jit samples st.segments st.nozzle_diameter st.current_layer k j i

/-- The synthetic single-layer rectangular infill trace of claim C7:
nozzle diameter 0.25 mm, one layer holding a 10x10 mm rectangle of four
extrusion segments. -/
def evsC7 : List GEvent :=
  [GEvent.paramNozzle (1 / 4), GEvent.layerBegin,
   GEvent.moveG1 (some 0) (some 0) (some (1 / 4)) none,
   GEvent.moveG1 (some 10) none none (some 1),
   GEvent.moveG1 none (some 10) none (some 1),
   GEvent.moveG1 (some 0) none none (some 1),
   GEvent.moveG1 none (some 0) none (some 1),
   GEvent.layerEnd]

/-- The four layer-0 segments of the C7 trace. -/
def segsC7 : List Seg :=
  [⟨⟨0, 0, 1 / 4⟩, ⟨10, 0, 1 / 4⟩, some 0⟩,
   ⟨⟨10, 0, 1 / 4⟩, ⟨10, 10, 1 / 4⟩, some 0⟩,
   ⟨⟨10, 10, 1 / 4⟩, ⟨0, 10, 1 / 4⟩, some 0⟩,
   ⟨⟨0, 10, 1 / 4⟩, ⟨0, 0, 1 / 4⟩, some 0⟩]

/-- The parse state after the C7 trace. -/
def stC7 : ParseState := ⟨some 0, some 0, some (1 / 4), none, 1, 1 / 4, segsC7⟩

/-- A jitter stream that always returns 0. -/
def jit0 : ℕ → F := fun _ => F.fin 0

/-- A square-root model adequate for the evaluated path: fixes 0 and
propagates NaN. -/
def sqrt0 : F → F
  | F.nanv => F.nanv
  | _ => F.fin 0

lemma parseC7 : parseTrace evsC7 = stC7 := by
  norm_num [parseTrace, parseStep, parseInit, evsC7, stC7, segsC7, Option.getD]

/-- The rasterization environment of the C7 trace: the bounding-box fold
is empty (all segments are layer 0), so the minima stay near `f32::MAX`
and the sizes overflow to negative infinity. -/
def envC7val : RasterEnv :=
  { bbox_min := (F.fin (f32Max - 1/8), F.fin (f32Max - 1/8), F.fin (f32Max - 1/4))
    bbox_size := (F.ninf, F.ninf, F.ninf)
    cvec := (F.fin 1, F.fin 1, F.fin 1)
    nozzle_dims := (F.fin 0, F.fin 0) }

lemma envC7 : rasterEnv segsC7 (1 / 4) 1 = envC7val := by
  rw [envC7val]
  norm_num [rasterEnv, dilateBBoxF, bboxFromSegmentsF, bboxFEmpty, segLayerPos,
    segsC7, subF, addF, divF, mulF, finChecked, f32Max, f32Min]

/-- The degenerate per-segment geometry shared by all four C7 segments. -/
def segGeomC7val : SegGeom :=
  { startP := (F.fin 0, F.fin 0), endP := (F.fin 0, F.fin 0), d := (F.fin 0, F.fin 0)
    normal_vec := (F.nanv, F.nanv), j_min := 0, j_max := 0, i_min := 0, i_max := 0 }

lemma segGeomC7 (sq : F → F) (h0 : sq (F.fin 0) = F.fin 0) (seg : Seg)
    (hm : seg ∈ segsC7) :
    segGeom sq envC7val 1 1 seg = segGeomC7val := by
  rw [envC7val]
  fin_cases hm <;>
    norm_num [segGeom, toGridXY, subF2, normalizeF2, normF2, subF, addF, divF, mulF,
      negF, absF, ltF, floorF, ceilF, asIsizeF, truncQ, imin, imax, finChecked, f32Max,
      segGeomC7val, h0]

lemma mulF_zero_right (x : F) : mulF x (F.fin 0) = F.fin 0 ∨ mulF x (F.fin 0) = F.nanv := by
  cases x <;> norm_num [mulF, finChecked, f32Max]

lemma subF_nanv_right (x : F) : subF x F.nanv = F.nanv := by cases x <;> rfl

lemma finChecked_zero : finChecked 0 = F.fin 0 := by
  norm_num [finChecked, f32Max]

lemma addF_fin_fin (a b : ℚ) : addF (F.fin a) (F.fin b) = finChecked (a + b) := rfl

lemma subF_fin_fin (a b : ℚ) : subF (F.fin a) (F.fin b) = finChecked (a - b) := rfl

lemma mulF_fin_fin (a b : ℚ) : mulF (F.fin a) (F.fin b) = finChecked (a * b) := rfl

lemma addF_nanv_left (x : F) : addF F.nanv x = F.nanv := by cases x <;> rfl

lemma addF_nanv_right (x : F) : addF x F.nanv = F.nanv := by cases x <;> rfl

lemma mulF_nanv_left (x : F) : mulF F.nanv x = F.nanv := by cases x <;> rfl

lemma mulF_nanv_right (x : F) : mulF x F.nanv = F.nanv := by cases x <;> rfl

lemma divF_nanv_left (x : F) : divF F.nanv x = F.nanv := by cases x <;> rfl

lemma divF_zero_zero : divF (F.fin 0) (F.fin 0) = F.nanv := by
  norm_num [divF]

lemma ltF_nanv_left (x : F) : ltF F.nanv x = false := by cases x <;> rfl

lemma ltF_nanv_right (x : F) : ltF x F.nanv = false := by cases x <;> rfl

lemma sampleIsIn_false (sq : F → F) (_h0 : sq (F.fin 0) = F.fin 0)
    (hn : sq F.nanv = F.nanv) (p : F × F) :
    sampleIsIn sq segGeomC7val (F.fin 0, F.fin 0) p = false := by
  obtain ⟨px, py⟩ := p
  have h1 := mulF_zero_right (subF px (F.fin 0))
  have h2 := mulF_zero_right (subF py (F.fin 0))
  rcases h1 with h1 | h1 <;> rcases h2 with h2 | h2 <;>
    simp [sampleIsIn, segGeomC7val, dotF2, subF2, addF2, scaleF2, compDivF2, normF2,
      h1, h2, hn, addF_fin_fin, subF_fin_fin, mulF_fin_fin, finChecked_zero, addF_nanv_left,
      addF_nanv_right, mulF_nanv_left, mulF_nanv_right, divF_nanv_left, divF_zero_zero,
      ltF_nanv_left, ltF_nanv_right, subF_nanv_right]

lemma segCellValue_zero (sq : F → F) (jit : ℕ → F) (h0 : sq (F.fin 0) = F.fin 0)
    (hn : sq F.nanv = F.nanv) (j i : ℕ) :
    segCellValue sq jit 4 segGeomC7val (F.fin 0, F.fin 0) j i = 0 := by
  have hs : ∀ l, sampleIsIn sq segGeomC7val (F.fin 0, F.fin 0) (samplePoint jit j i l) = false :=
    fun l => sampleIsIn_false sq h0 hn _
  norm_num [segCellValue, hs, fAsU8, divF, mulF, finChecked, f32Max, ratTruncU8,
    truncQ, imin, imax]

lemma voxValueAtC7_zero (sq : F → F) (jit : ℕ → F) (h0 : sq (F.fin 0) = F.fin 0)
    (hn : sq F.nanv = F.nanv) :
    voxValueAt sq jit 4 segsC7 (1 / 4) 1 0 0 0 = 0 := by
  have hg1 : segGeom sq envC7val 1 1 ⟨⟨0, 0, 1 / 4⟩, ⟨10, 0, 1 / 4⟩, some 0⟩ = segGeomC7val :=
    segGeomC7 sq h0 _ (by simp [segsC7])
  have hg2 : segGeom sq envC7val 1 1 ⟨⟨10, 0, 1 / 4⟩, ⟨10, 10, 1 / 4⟩, some 0⟩ = segGeomC7val :=
    segGeomC7 sq h0 _ (by simp [segsC7])
  have hg3 : segGeom sq envC7val 1 1 ⟨⟨10, 10, 1 / 4⟩, ⟨0, 10, 1 / 4⟩, some 0⟩ = segGeomC7val :=
    segGeomC7 sq h0 _ (by simp [segsC7])
  have hg4 : segGeom sq envC7val 1 1 ⟨⟨0, 10, 1 / 4⟩, ⟨0, 0, 1 / 4⟩, some 0⟩ = segGeomC7val :=
    segGeomC7 sq h0 _ (by simp [segsC7])
  have hfl : List.filter (fun s => decide (s.layer = some 0)) segsC7 = segsC7 := by
    simp [segsC7]
  have hnoz : envC7val.nozzle_dims = (F.fin 0, F.fin 0) := rfl
  have hjm : segGeomC7val.j_min = 0 := rfl
  have hjx : segGeomC7val.j_max = 0 := rfl
  have him : segGeomC7val.i_min = 0 := rfl
  have hix : segGeomC7val.i_max = 0 := rfl
  simp only [voxValueAt]
  rw [envC7, hfl]
  simp only [segsC7, List.foldl_cons, List.foldl_nil, hg1, hg2, hg3, hg4,
    hjm, hjx, him, hix, hnoz, segCellValue_zero sq jit h0 hn, satAdd]
  norm_num

lemma dimsC7 : voxelizeDims evsC7 = (1, 1, 1) := by
  simp [voxelizeDims, parseC7, stC7]

lemma valueC7_zero (sq : F → F) (jit : ℕ → F) (h0 : sq (F.fin 0) = F.fin 0)
    (hn : sq F.nanv = F.nanv) :
    voxelizeValueAt sq jit 4 evsC7 0 0 0 = 0 := by
  simp only [voxelizeValueAt, parseC7, stC7]
  exact voxValueAtC7_zero sq jit h0 hn

/-- C7 counterexample: the synthetic single-layer rectangular infill trace
with 4 samples yields a 1 by 1 by 1 grid whose single voxel is 0, not 255:
the single layer's segments are all tagged layer 0 and are excluded from
the bounding box, which therefore degenerates (min at `f32::MAX`, size
overflowing to negative infinity); every coverage sample then fails its
NaN comparison. -/
theorem c7_single_layer_counterexample :
    voxelizeDims evsC7 = (1, 1, 1) ∧
    voxelizeValueAt sqrt0 jit0 4 evsC7 0 0 0 ≠ 255 := by
  refine ⟨dimsC7, ?_⟩
  rw [valueC7_zero sqrt0 jit0 rfl rfl]
  norm_num

/-- C7 (amended): a synthetic single-layer rectangular infill trace
processed with `samples = 4` yields an `output_geometry` grid that is a
cube with side the detected layer count — here 1 by 1 by 1 — but whose
single voxel has value 0, not 255: layer-0 segments are excluded from the
bounding box, so the box degenerates and every point-in-footprint sample
evaluates through NaN comparisons to false, for every jitter stream and
any square root satisfying `sqrt 0 = 0` and `sqrt NaN = NaN`. -/
theorem c7_single_layer_output (jit : ℕ → F) (sq : F → F)
    (h0 : sq (F.fin 0) = F.fin 0) (hn : sq F.nanv = F.nanv) :
    voxelizeDims evsC7 = (1, 1, 1) ∧
    voxelizeValueAt sq jit 4 evsC7 0 0 0 = 0 :=
  ⟨dimsC7, valueC7_zero sq jit h0 hn⟩

/-- C7 witness: the zero jitter stream and the concrete square-root
model. -/
theorem c7_single_layer_output_witness :
    voxelizeDims evsC7 = (1, 1, 1) ∧
    voxelizeValueAt sqrt0 jit0 4 evsC7 0 0 0 = 0 :=
  c7_single_layer_output jit0 sqrt0 rfl rfl

end Icesl2Voxel
